import Mathlib

/-!
Shallow embedding of the RAMulator core (Kihau/RAMulator):
  * `lib.rs`    — the instruction data model (`OpCode`, `OpType`, `Instruction`);
  * `ram.rs`    — the execution engine (`RAM`, `execute_next_instruction`);
  * `parser.rs` — the assembler (`Parser`, `parse_instruction_new`, `parse_source_new`);
  * `new_parser.rs` — the tokenizer (`Token`, `NewParser`, `parse_line`).

Rust `i32` values are modelled as `Int` together with explicit 32-bit wrapping
where the source can overflow; Rust panics (out-of-bounds indexing, division by
zero, `panic!` calls) are modelled as an explicit `panicked` outcome; the
stdin/stdout/stderr channels of the engine are modelled as explicit lists
carried in the execution state.
-/

namespace RAMulator

/-- Wrap an integer into the `i32` range `[-2^31, 2^31)` (release-mode wrapping
arithmetic; the spec documents signed 32-bit wraparound semantics). -/
def wrap32 (v : Int) : Int := ((v + 2 ^ 31) % 2 ^ 32) - 2 ^ 31

/-- The Rust cast `v as usize` for `v : i32` on a 64-bit target: sign-extend to
64 bits and reinterpret as an unsigned machine word. -/
def usizeOfI32 (v : Int) : Nat := (v % 2 ^ 64).toNat

/-- The Rust cast `n as i32` for `n : usize`: truncate to the low 32 bits. -/
def i32OfUsize (n : Nat) : Int := wrap32 n

/-- Rust's `str::parse::<i32>`: an optional sign followed by at least one ASCII
digit, the resulting value lying in the `i32` range; anything else fails. -/
def parseI32 (s : String) : Option Int :=
  match s.data with
  | [] => Option.none
  | c :: cs =>
    let signDigits : Bool × List Char :=
      if c = '-' then (true, cs)
      else if c = '+' then (false, cs)
      else (false, c :: cs)
    let neg := signDigits.1
    let digits := signDigits.2
    if digits = [] then Option.none
    else if digits.all (fun d => d.isDigit) then
      let n : Nat := digits.foldl (fun a d => a * 10 + (d.toNat - '0'.toNat)) 0
      let v : Int := if neg then -(n : Int) else (n : Int)
      if -(2 ^ 31) ≤ v ∧ v ≤ 2 ^ 31 - 1 then Option.some v else Option.none
    else Option.none

/-!
The Rust code uses `str` primitives (`starts_with`, `ends_with`, `pop`,
`chars().next()`, `trim`, `split_whitespace`, `lines`).  They are embedded
below as explicit functions over the string's character list.
-/

/-- Rust `str::starts_with(c: char)`: test the first character. -/
def str_starts_with (s : String) (c : Char) : Bool :=
  match s.data with
  | [] => false
  | c2 :: _ => c2 = c

/-- Rust `str::ends_with(c: char)`: test the last character. -/
def str_ends_with (s : String) (c : Char) : Bool :=
  match s.data.getLast? with
  | Option.none => false
  | Option.some c2 => c2 = c

/-- Rust `String::pop` as used on label words: remove the last character. -/
def str_pop (s : String) : String := String.mk s.data.dropLast

/-- Rust `Chars::as_str` after one `next()`: the string without its first
character. -/
def str_drop1 (s : String) : String := String.mk (s.data.drop 1)

/-- Rust `str::trim`: drop leading and trailing whitespace. -/
def str_trim (s : String) : String :=
  String.mk ((s.data.dropWhile Char.isWhitespace).reverse.dropWhile Char.isWhitespace).reverse

/-- Rust `str::split_whitespace`: the maximal runs of non-whitespace
characters, left to right (`acc` holds the current word reversed). -/
def split_whitespace_aux : List Char → List Char → List String
  | [], acc => if acc = [] then [] else [String.mk acc.reverse]
  | c :: cs, acc =>
    if c.isWhitespace then
      if acc = [] then split_whitespace_aux cs []
      else String.mk acc.reverse :: split_whitespace_aux cs []
    else split_whitespace_aux cs (c :: acc)

/-- Rust `str::split_whitespace` on a string. -/
def split_whitespace (s : String) : List String := split_whitespace_aux s.data []

/-- Split a character list at every newline (`acc` holds the current line
reversed). -/
def lines_split : List Char → List Char → List (List Char)
  | [], acc => [acc.reverse]
  | c :: cs, acc =>
    if c = '\n' then acc.reverse :: lines_split cs []
    else lines_split cs (c :: acc)

/-- Rust `str::lines`: split on newlines, a trailing newline producing no
final empty line, one trailing carriage return stripped from each line. -/
def str_lines (s : String) : List String :=
  let parts := lines_split s.data []
  let parts := if parts.getLast? = Option.some [] then parts.dropLast else parts
  parts.map (fun l =>
    if l.getLast? = Option.some '\r' then String.mk l.dropLast else String.mk l)

/-! ## `lib.rs` — data model -/

/-- Random Access Machine opcodes (lib.rs). -/
inductive OpCode where
  | LOAD | STORE | ADD | SUB | MULT | DIV
  | READ | WRITE | JUMP | JGTZ | JZERO | HALT
  deriving DecidableEq, Repr

/-- Type of the operand (lib.rs). -/
inductive OpType where
  | Register | Value | ReadReg | NoValue
  deriving DecidableEq, Repr

/-- A single instruction in the RAM code (lib.rs). -/
structure Instruction where
  op_code : OpCode
  op_type : OpType
  op_value : Int
  deriving DecidableEq, Repr

/-! ## `ram.rs` — execution engine -/

/-- Register used as an input and output to store and load data from executed
instructions (ram.rs `ADDER`). -/
def ADDER : Nat := 0

/-- State of the machine (ram.rs `RAM`). -/
structure RAM where
  finished : Bool
  instruction_stack : List Instruction
  instruction_pointer : Nat
  registers : List Int
  deriving DecidableEq, Repr

/-- `Vec::resize(n, 0)` as performed by the register accessors: grow the
register file to length at least `n` by appending zeros (never shrinks, since
the source resizes only when the index is out of bounds). -/
def resizeTo (regs : List Int) (n : Nat) : List Int :=
  if n ≤ regs.length then regs else regs ++ List.replicate (n - regs.length) 0

/-- `RAM::get_register_data`: grow the register file to cover `idx`, then read
it.  Returns the value and the (possibly grown) machine. -/
def get_register_data (ram : RAM) (idx : Nat) : Int × RAM :=
  ((resizeTo ram.registers (idx + 1)).getD idx 0,
   { ram with registers := resizeTo ram.registers (idx + 1) })

/-- `RAM::get_readregister_data`: double dereference — read register `idx`,
cast the value to an index, and read that register. -/
def get_readregister_data (ram : RAM) (idx : Nat) : Int × RAM :=
  get_register_data (get_register_data ram idx).2
    (usizeOfI32 (get_register_data ram idx).1)

/-- `RAM::set_register_data`: grow the register file to cover `idx`, then
write `data` at `idx`. -/
def set_register_data (ram : RAM) (idx : Nat) (data : Int) : RAM :=
  { ram with registers := (resizeTo ram.registers (idx + 1)).set idx data }

/-- `RAM::set_readregister_data`: read register `idx`, cast the value to an
index, and write `data` there. -/
def set_readregister_data (ram : RAM) (idx : Nat) (data : Int) : RAM :=
  set_register_data (get_register_data ram idx).2
    (usizeOfI32 (get_register_data ram idx).1) data

/-- `RAM::get_instruction_data`: decode the operand of `inst` according to its
addressing mode.  The `NoValue` arm is a Rust `panic!`, modelled as `.error`. -/
def get_instruction_data (ram : RAM) (inst : Instruction) :
    Except String (Int × RAM) :=
  match inst.op_type with
  | OpType.Register => Except.ok (get_register_data ram (usizeOfI32 inst.op_value))
  | OpType.Value => Except.ok (inst.op_value, ram)
  | OpType.ReadReg => Except.ok (get_readregister_data ram (usizeOfI32 inst.op_value))
  | OpType.NoValue => Except.error "Instruction requires an argument"

/-- The engine together with its I/O channels: remaining stdin lines, stdout
values printed by WRITE, and stderr lines. -/
structure ExecState where
  ram : RAM
  stdin : List String
  stdout : List Int
  stderr : List String
  deriving DecidableEq, Repr

/-- Outcome of one call to `execute_next_instruction`: `Some(inst)` /
`None` from the source, plus an explicit outcome for a Rust panic. -/
inductive StepResult where
  | some (inst : Instruction)
  | none
  | panicked (msg : String)
  deriving DecidableEq, Repr

/-- `RAM::execute_next_instruction`, translated arm by arm from ram.rs.
Rust panics (operand-mode mismatches, division by zero, out-of-bounds
instruction fetch) become a `panicked` result. -/
def execute_next_instruction (s : ExecState) : StepResult × ExecState :=
  let ram := s.ram
  let inst_idx := ram.instruction_pointer
  if inst_idx = ram.instruction_stack.length ∨ ram.finished = true then
    (StepResult.none, { s with ram := { ram with finished := true } })
  else
    match ram.instruction_stack[inst_idx]? with
    | Option.none => (StepResult.panicked "index out of bounds", s)
    | Option.some inst =>
      let ram := { ram with instruction_pointer := inst_idx + 1 }
      match inst.op_code with
      | OpCode.LOAD =>
        match get_instruction_data ram inst with
        | Except.error m => (StepResult.panicked m, s)
        | Except.ok (data, ram) =>
          (StepResult.some inst, { s with ram := set_register_data ram ADDER data })
      | OpCode.STORE =>
        let r := get_register_data ram ADDER
        let data := r.1
        let ram := r.2
        match inst.op_type with
        | OpType.Register =>
          (StepResult.some inst,
            { s with ram := set_register_data ram (usizeOfI32 inst.op_value) data })
        | OpType.ReadReg =>
          (StepResult.some inst,
            { s with ram := set_readregister_data ram (usizeOfI32 inst.op_value) data })
        | OpType.NoValue => (StepResult.panicked "Instruction STORE requires a register", s)
        | OpType.Value => (StepResult.panicked "Instruction STORE requires a register", s)
      | OpCode.ADD =>
        match get_instruction_data ram inst with
        | Except.error m => (StepResult.panicked m, s)
        | Except.ok (data, ram) =>
          let r := get_register_data ram ADDER
          (StepResult.some inst,
            { s with ram := set_register_data r.2 ADDER (wrap32 (r.1 + data)) })
      | OpCode.SUB =>
        match get_instruction_data ram inst with
        | Except.error m => (StepResult.panicked m, s)
        | Except.ok (data, ram) =>
          let r := get_register_data ram ADDER
          (StepResult.some inst,
            { s with ram := set_register_data r.2 ADDER (wrap32 (r.1 - data)) })
      | OpCode.MULT =>
        match get_instruction_data ram inst with
        | Except.error m => (StepResult.panicked m, s)
        | Except.ok (data, ram) =>
          let r := get_register_data ram ADDER
          (StepResult.some inst,
            { s with ram := set_register_data r.2 ADDER (wrap32 (r.1 * data)) })
      | OpCode.DIV =>
        match get_instruction_data ram inst with
        | Except.error m => (StepResult.panicked m, s)
        | Except.ok (data, ram) =>
          let r := get_register_data ram ADDER
          if data = 0 then (StepResult.panicked "attempt to divide by zero", s)
          else if r.1 = -(2 ^ 31) ∧ data = -1 then
            (StepResult.panicked "attempt to divide with overflow", s)
          else
            (StepResult.some inst,
              { s with ram := set_register_data r.2 ADDER (Int.tdiv r.1 data) })
      | OpCode.READ =>
        let line : String × List String :=
          match s.stdin with
          | [] => ("", [])
          | l :: rest => (l, rest)
        match parseI32 (str_trim line.1) with
        | Option.none =>
          (StepResult.none,
            { s with
                ram := ram
                stdin := line.2
                stderr := s.stderr ++
                  ["ERROR: Incorrect READ data: Input argument must be a 32 bit integer"] })
        | Option.some data =>
          match inst.op_type with
          | OpType.Register =>
            (StepResult.some inst,
              { s with
                  ram := set_register_data ram (usizeOfI32 inst.op_value) data
                  stdin := line.2 })
          | OpType.ReadReg =>
            let r := get_register_data ram (usizeOfI32 inst.op_value)
            (StepResult.some inst,
              { s with
                  ram := set_register_data r.2 (usizeOfI32 r.1) data
                  stdin := line.2 })
          | OpType.NoValue => (StepResult.panicked "Instruction READ requires a register", s)
          | OpType.Value => (StepResult.panicked "Instruction READ requires a register", s)
      | OpCode.WRITE =>
        match get_instruction_data ram inst with
        | Except.error m => (StepResult.panicked m, s)
        | Except.ok (data, ram) =>
          (StepResult.some inst, { s with ram := ram, stdout := s.stdout ++ [data] })
      | OpCode.JUMP =>
        match get_instruction_data ram inst with
        | Except.error m => (StepResult.panicked m, s)
        | Except.ok (index, ram) =>
          (StepResult.some inst, { s with ram := { ram with instruction_pointer := usizeOfI32 index } })
      | OpCode.JGTZ =>
        let r := get_register_data ram ADDER
        if r.1 > 0 then
          match get_instruction_data r.2 inst with
          | Except.error m => (StepResult.panicked m, s)
          | Except.ok (index, ram) =>
            (StepResult.some inst, { s with ram := { ram with instruction_pointer := usizeOfI32 index } })
        else
          (StepResult.some inst, { s with ram := r.2 })
      | OpCode.JZERO =>
        let r := get_register_data ram ADDER
        if r.1 = 0 then
          match get_instruction_data r.2 inst with
          | Except.error m => (StepResult.panicked m, s)
          | Except.ok (index, ram) =>
            (StepResult.some inst, { s with ram := { ram with instruction_pointer := usizeOfI32 index } })
        else
          (StepResult.some inst, { s with ram := r.2 })
      | OpCode.HALT =>
        (StepResult.some inst, { s with ram := { ram with finished := true } })

/-- Result of the `(n+1)`-th consecutive call to `execute_next_instruction`
starting from `s` (`stepIter 0 s` is the first call). -/
def stepIter : Nat → ExecState → StepResult × ExecState
  | 0, s => execute_next_instruction s
  | n + 1, s => stepIter n (execute_next_instruction s).2

/-- Drive the machine like the host program does — call
`execute_next_instruction` while it returns `Some` — with explicit fuel. -/
def run_fuel : Nat → ExecState → ExecState
  | 0, s => s
  | n + 1, s =>
    match execute_next_instruction s with
    | (StepResult.some _, s2) => run_fuel n s2
    | (_, s2) => s2

/-- A freshly loaded machine: `RAM::new()` (all-default fields) followed by
`load_instructions`, together with the given stdin lines. -/
def initState (prog : List Instruction) (input : List String) : ExecState :=
  { ram := { finished := false, instruction_stack := prog,
             instruction_pointer := 0, registers := [] }
    stdin := input, stdout := [], stderr := [] }

/-! ## `parser.rs` — assembler -/

/-- The fixed mnemonic table of `parse_instruction_new` (case-sensitive exact
match; unknown mnemonics fall through to `none`). -/
def opcodeOfString (s : String) : Option OpCode :=
  if s = "LOAD" then Option.some OpCode.LOAD
  else if s = "STORE" then Option.some OpCode.STORE
  else if s = "ADD" then Option.some OpCode.ADD
  else if s = "SUB" then Option.some OpCode.SUB
  else if s = "MULT" then Option.some OpCode.MULT
  else if s = "DIV" then Option.some OpCode.DIV
  else if s = "READ" then Option.some OpCode.READ
  else if s = "WRITE" then Option.some OpCode.WRITE
  else if s = "JUMP" then Option.some OpCode.JUMP
  else if s = "JGTZ" then Option.some OpCode.JGTZ
  else if s = "JZERO" then Option.some OpCode.JZERO
  else if s = "HALT" then Option.some OpCode.HALT
  else Option.none

/-- Assembler state (parser.rs `Parser`): instruction cursor, the pending
(label, instruction index) list, and the label table.  The Rust `HashMap` is
modelled as an association list (keys are inserted only when absent, so
`List.lookup` agrees with the map). -/
structure Parser where
  cursor : Nat
  missing_labels : List (String × Nat)
  label_map : List (String × Nat)
  deriving DecidableEq, Repr

/-- `Parser::default()`. -/
def Parser.default : Parser := { cursor := 0, missing_labels := [], label_map := [] }

/-- Per-line parsing outcome (parser.rs `ParsingResult`). -/
inductive ParsingResult where
  | Instruction (inst : Instruction)
  | EmptyLine
  | JumpLabel
  | Comment
  | InvalidInstructionError (s : String)
  | ReapeatingLabelError (s : String)
  | EmptyLabelError
  deriving DecidableEq, Repr

/-- Outcome of the label-stripping `while` loop in `parse_instruction_new`:
either an early return, or the first non-label word plus the remaining words. -/
inductive LabelLoopResult where
  | early (r : ParsingResult) (p : Parser)
  | word (w : String) (rest : List String) (p : Parser)
  deriving DecidableEq, Repr

/-- The `while opcode_string.ends_with(':')` loop of `parse_instruction_new`:
pop the colon, reject empty or duplicate label names, record the label at the
current cursor, and fetch the next word (recursion is on the remaining words,
so the loop body appears once per list constructor). -/
def label_loop (p : Parser) (w : String) : List String → LabelLoopResult
  | [] =>
    if str_ends_with w ':' then
      let name := str_pop w
      if name = "" then LabelLoopResult.early ParsingResult.EmptyLabelError p
      else if (p.label_map.lookup name).isSome then
        LabelLoopResult.early (ParsingResult.ReapeatingLabelError name) p
      else
        LabelLoopResult.early ParsingResult.JumpLabel
          { p with label_map := (name, p.cursor) :: p.label_map }
    else LabelLoopResult.word w [] p
  | w2 :: rest =>
    if str_ends_with w ':' then
      let name := str_pop w
      if name = "" then LabelLoopResult.early ParsingResult.EmptyLabelError p
      else if (p.label_map.lookup name).isSome then
        LabelLoopResult.early (ParsingResult.ReapeatingLabelError name) p
      else
        label_loop { p with label_map := (name, p.cursor) :: p.label_map } w2 rest
    else LabelLoopResult.word w (w2 :: rest) p

/-- Body of `Parser::parse_instruction_new` after `split_whitespace`: comment
and label handling, mnemonic lookup, and operand classification.  A word whose
leading marker (`*` / `=`) is stripped but whose remainder is not an integer is
recorded in `missing_labels` as the *whole* word (marker included), with the
addressing mode forced to `Value` and `-1` as the placeholder operand. -/
def parse_instruction_words (p : Parser) (words : List String) :
    ParsingResult × Parser :=
  match words with
  | [] => (ParsingResult.EmptyLine, p)
  | w :: data =>
    if str_starts_with w ';' then (ParsingResult.Comment, p)
    else
      match label_loop p w data with
      | LabelLoopResult.early r p2 => (r, p2)
      | LabelLoopResult.word opcode_string data p2 =>
        match opcodeOfString opcode_string with
        | Option.none => (ParsingResult.InvalidInstructionError opcode_string, p2)
        | Option.some op_code =>
          let noValue : ParsingResult × Parser :=
            (ParsingResult.Instruction
              { op_code := op_code, op_type := OpType.NoValue, op_value := 0 },
             { p2 with cursor := p2.cursor + 1 })
          match data with
          | [] => noValue
          | value :: _ =>
            if str_starts_with value ';' then noValue
            else
              let typed : OpType × String :=
                if str_starts_with value '*' then (OpType.ReadReg, str_drop1 value)
                else if str_starts_with value '=' then (OpType.Value, str_drop1 value)
                else (OpType.Register, value)
              match parseI32 typed.2 with
              | Option.some v =>
                (ParsingResult.Instruction
                  { op_code := op_code, op_type := typed.1, op_value := v },
                 { p2 with cursor := p2.cursor + 1 })
              | Option.none =>
                (ParsingResult.Instruction
                  { op_code := op_code, op_type := OpType.Value, op_value := -1 },
                 { p2 with
                     missing_labels := p2.missing_labels ++ [(value, p2.cursor)]
                     cursor := p2.cursor + 1 })

/-- `Parser::parse_instruction_new`. -/
def parse_instruction_new (p : Parser) (line : String) : ParsingResult × Parser :=
  parse_instruction_words p (split_whitespace line)

/-- The per-line loop of `parse_source_new`: accumulate emitted instructions,
aborting with the formatted error message on the first failing line (`temp` is
the 1-based line counter). -/
def parse_source_lines (p : Parser) (stack : List Instruction) (temp : Nat) :
    List String → Except String (List Instruction × Parser)
  | [] => Except.ok (stack, p)
  | line :: rest =>
    match parse_instruction_new p line with
    | (ParsingResult.Instruction inst, p2) =>
      parse_source_lines p2 (stack ++ [inst]) (temp + 1) rest
    | (ParsingResult.ReapeatingLabelError name, _) =>
      Except.error ("ERROR: Exception in line " ++ toString temp ++ ". Label " ++ name ++
        " is declared in multiple places. You cannot have more than one label with the same name")
    | (ParsingResult.InvalidInstructionError code, _) =>
      Except.error ("ERROR: Exception in line " ++ toString temp ++ ". Instruction `" ++ code ++
        "` does not exist.")
    | (ParsingResult.EmptyLabelError, _) =>
      Except.error ("ERROR: Exception in line " ++ toString temp ++
        ". Label cannot be an empty string.")
    | (_, p2) => parse_source_lines p2 stack (temp + 1) rest

/-- The back-patch loop of `parse_source_new`: for each pending (label, index)
pair, look the label up and overwrite that instruction's operand.  An absent
label aborts with the formatted message; the source's direct indexing would
panic out of bounds, modelled as an explicit error (unreachable from a fresh
parse, where every recorded index is below the stack length). -/
def fill_missing (stack : List Instruction) (label_map : List (String × Nat)) :
    List (String × Nat) → Except String (List Instruction)
  | [] => Except.ok stack
  | (name, idx) :: rest =>
    match label_map.lookup name with
    | Option.none =>
      Except.error ("ERROR: Exception thrown. Label named `" ++ name ++ "` not found.")
    | Option.some value =>
      if idx < stack.length then
        fill_missing
          (stack.set idx
            { (stack.getD idx { op_code := OpCode.HALT, op_type := OpType.NoValue, op_value := 0 })
                with op_value := i32OfUsize value })
          label_map rest
      else Except.error "panic: index out of bounds"

/-- `Parser::parse_source_new`: parse every line, then fill the pending
labels. -/
def parse_source_new (p : Parser) (source : String) : Except String (List Instruction) :=
  match parse_source_lines p [] 1 (str_lines source) with
  | Except.error e => Except.error e
  | Except.ok (stack, p2) => fill_missing stack p2.label_map p2.missing_labels

/-! ## `new_parser.rs` — tokenizer -/

/-- Lexical tokens (new_parser.rs `Token`). -/
inductive Token where
  | Label (s : String)
  | InstrName (s : String)
  | InstrType (c : Char)
  | InstrValue (s : String)
  | Comment (s : String)
  | NewLine
  deriving DecidableEq, Repr

/-- Is a token a comment token? -/
def Token.isComment : Token → Bool
  | Token.Comment _ => true
  | _ => false

/-- Tokenizer state (new_parser.rs `NewParser`): the accumulated token list. -/
structure NewParser where
  tokens : List Token
  deriving DecidableEq, Repr

/-- `NewParser::tokenize_word`: classify a completed word.  Empty words are
dropped; a trailing colon makes a label (colon stripped); the first non-label
word is the mnemonic; later words are operand values.  Returns the parser and
the updated `found_opcode` flag. -/
def tokenize_word (np : NewParser) (word : String) (found_opcode : Bool) :
    NewParser × Bool :=
  if word = "" then (np, found_opcode)
  else if str_ends_with word ':' then
    ({ tokens := np.tokens ++ [Token.Label (str_pop word)] }, found_opcode)
  else if found_opcode = false then
    ({ tokens := np.tokens ++ [Token.InstrName word] }, true)
  else
    ({ tokens := np.tokens ++ [Token.InstrValue word] }, found_opcode)

/-- The character loop of `NewParser::parse_line`.  A semicolon pushes one
comment token holding the rest of the line and breaks out of the loop; the
call of `tokenize_word` that follows the loop in the source therefore also
runs in the semicolon case, on the word accumulated so far. -/
def parse_line_loop (np : NewParser) (found_opcode : Bool) (word : String) :
    List Char → NewParser × Bool
  | [] => tokenize_word np word found_opcode
  | c :: cs =>
    if c = ';' then
      tokenize_word { tokens := np.tokens ++ [Token.Comment (String.mk cs)] }
        word found_opcode
    else if (c = '=' ∨ c = '*') ∧ word = "" then
      parse_line_loop { tokens := np.tokens ++ [Token.InstrType c] } found_opcode word cs
    else if c.isWhitespace then
      let r := tokenize_word np word found_opcode
      parse_line_loop r.1 r.2 "" cs
    else
      parse_line_loop np found_opcode (word.push c) cs

/-- `NewParser::parse_line`. -/
def parse_line (np : NewParser) (line : String) : NewParser :=
  (parse_line_loop np false "" line.data).1

/-- `NewParser::parse_source`: tokenize each line and append a `NewLine`
token after it. -/
def NewParser.parse_source (np : NewParser) (source : String) : NewParser :=
  (str_lines source).foldl
    (fun acc line => { tokens := (parse_line acc line).tokens ++ [Token.NewLine] }) np

/-- The tokenizer-loop state reached after consuming a semicolon-free prefix
of the line: the tokens pushed so far, the `found_opcode` flag, and the word
in progress.  Agrees with `parse_line_loop` on character lists that contain
no `';'` (used to state what the loop has done when it meets a semicolon). -/
def parse_line_scan (np : NewParser) (found_opcode : Bool) (word : String) :
    List Char → NewParser × Bool × String
  | [] => (np, found_opcode, word)
  | c :: cs =>
    if (c = '=' ∨ c = '*') ∧ word = "" then
      parse_line_scan { tokens := np.tokens ++ [Token.InstrType c] } found_opcode word cs
    else if c.isWhitespace then
      let r := tokenize_word np word found_opcode
      parse_line_scan r.1 r.2 "" cs
    else
      parse_line_scan np found_opcode (word.push c) cs

/-! ## Helper lemmas -/

/-- Growing the register file with zeros never changes what a defaulted read
returns. -/
theorem resizeTo_getD (regs : List Int) (n i : Nat) :
    (resizeTo regs n).getD i 0 = regs.getD i 0 := by
  unfold resizeTo
  split
  · rfl
  · rcases Nat.lt_or_ge i regs.length with h | h
    · exact List.getD_append _ _ _ _ h
    · rw [List.getD_append_right _ _ _ _ h, List.getD_eq_default _ _ h]
      rcases Nat.lt_or_ge (i - regs.length) (n - regs.length) with h2 | h2
      · rw [List.getD_eq_getElem _ _ (by simpa using h2)]
        simp
      · exact List.getD_eq_default _ _ (by simpa using h2)

/-- Calling `execute_next_instruction` on a finished machine returns `None`
and leaves the state unchanged. -/
theorem step_of_finished (s : ExecState) (h : s.ram.finished = true) :
    execute_next_instruction s = (StepResult.none, s) := by
  obtain ⟨⟨fin, stk, ip, regs⟩, sin, sout, serr⟩ := s
  have hf : fin = true := h
  subst hf
  unfold execute_next_instruction
  rw [if_pos (Or.inr rfl)]

/-- Every later call on a finished machine also returns `None`. -/
theorem stepIter_of_finished : ∀ (n : Nat) (s : ExecState),
    s.ram.finished = true → stepIter n s = (StepResult.none, s)
  | 0, s, h => step_of_finished s h
  | n + 1, s, h => by
    show stepIter n (execute_next_instruction s).2 = _
    rw [step_of_finished s h]
    exact stepIter_of_finished n s h

/-- A string whose first character is a semicolon is `';'` followed by some
tail. -/
theorem starts_semi_exists {v : String} (hv : str_starts_with v ';' = true) :
    ∃ cs, v = String.mk (';' :: cs) := by
  obtain ⟨l⟩ := v
  cases l with
  | nil => simp [str_starts_with] at hv
  | cons c cs =>
    have hc : c = ';' := by simpa [str_starts_with] using hv
    exact ⟨cs, by rw [hc]⟩

set_option maxHeartbeats 2000000 in
/-- The mnemonic table succeeds exactly on the twelve opcode names. -/
theorem opcodeOfString_cases {w : String} {oc : OpCode}
    (h : opcodeOfString w = Option.some oc) :
    (w, oc) = ("LOAD", OpCode.LOAD) ∨ (w, oc) = ("STORE", OpCode.STORE) ∨
    (w, oc) = ("ADD", OpCode.ADD) ∨ (w, oc) = ("SUB", OpCode.SUB) ∨
    (w, oc) = ("MULT", OpCode.MULT) ∨ (w, oc) = ("DIV", OpCode.DIV) ∨
    (w, oc) = ("READ", OpCode.READ) ∨ (w, oc) = ("WRITE", OpCode.WRITE) ∨
    (w, oc) = ("JUMP", OpCode.JUMP) ∨ (w, oc) = ("JGTZ", OpCode.JGTZ) ∨
    (w, oc) = ("JZERO", OpCode.JZERO) ∨ (w, oc) = ("HALT", OpCode.HALT) := by
  unfold opcodeOfString at h
  split_ifs at h <;> (injection h with h2; subst h2; subst_vars; simp)

/-- `tokenize_word` appends at most one token, and never a comment token. -/
theorem tokenize_word_tokens (np : NewParser) (word : String) (f : Bool) :
    (tokenize_word np word f).1.tokens = np.tokens ∨
    ∃ t, (tokenize_word np word f).1.tokens = np.tokens ++ [t] ∧
      t.isComment = false := by
  unfold tokenize_word
  split_ifs
  · exact Or.inl rfl
  · exact Or.inr ⟨_, rfl, rfl⟩
  · exact Or.inr ⟨_, rfl, rfl⟩
  · exact Or.inr ⟨_, rfl, rfl⟩

/-- On a line that reaches a semicolon, the tokenizer loop equals: run the
semicolon-free prefix, push one comment token holding the rest of the line,
then flush the pending word. -/
theorem scan_semicolon (cs2 : List Char) :
    ∀ (cs1 : List Char) (np : NewParser) (f : Bool) (w : String), ';' ∉ cs1 →
      parse_line_loop np f w (cs1 ++ ';' :: cs2) =
        tokenize_word
          { tokens := (parse_line_scan np f w cs1).1.tokens ++
              [Token.Comment (String.mk cs2)] }
          (parse_line_scan np f w cs1).2.2 (parse_line_scan np f w cs1).2.1 := by
  intro cs1
  induction cs1 with
  | nil =>
    intro np f w _
    rfl
  | cons c cs ih =>
    intro np f w hmem
    have hc : ¬(c = ';') := fun hc => hmem (by rw [hc]; exact List.mem_cons_self _ _)
    have hcs : ';' ∉ cs := fun hx => hmem (List.mem_cons_of_mem _ hx)
    simp only [List.cons_append, parse_line_loop, parse_line_scan]
    rw [if_neg hc]
    split_ifs with h1 h2 <;> exact ih _ _ _ hcs

/-- The semicolon-free scan only appends non-comment tokens. -/
theorem scan_no_comment :
    ∀ (cs : List Char) (np : NewParser) (f : Bool) (w : String),
      ∃ ts, (parse_line_scan np f w cs).1.tokens = np.tokens ++ ts ∧
        ∀ t ∈ ts, t.isComment = false := by
  intro cs
  induction cs with
  | nil =>
    intro np f w
    exact ⟨[], by simp [parse_line_scan], by simp⟩
  | cons c cs ih =>
    intro np f w
    show ∃ ts, ((if (c = '=' ∨ c = '*') ∧ w = "" then
        parse_line_scan { tokens := np.tokens ++ [Token.InstrType c] } f w cs
      else if c.isWhitespace = true then
        parse_line_scan (tokenize_word np w f).1 (tokenize_word np w f).2 "" cs
      else parse_line_scan np f (w.push c) cs)).1.tokens = np.tokens ++ ts ∧
        ∀ t ∈ ts, t.isComment = false
    split_ifs with h1 h2
    · obtain ⟨ts, hts, hnc⟩ := ih { tokens := np.tokens ++ [Token.InstrType c] } f w
      refine ⟨Token.InstrType c :: ts, ?_, ?_⟩
      · rw [hts]; simp
      · intro t ht
        rcases List.mem_cons.1 ht with h | h
        · rw [h]; rfl
        · exact hnc t h
    · obtain ⟨ts, hts, hnc⟩ := ih (tokenize_word np w f).1 (tokenize_word np w f).2 ""
      rcases tokenize_word_tokens np w f with he | ⟨t, he, hc⟩
      · exact ⟨ts, by rw [hts, he], hnc⟩
      · refine ⟨t :: ts, ?_, ?_⟩
        · rw [hts, he]; simp
        · intro t2 ht2
          rcases List.mem_cons.1 ht2 with h | h
          · rw [h]; exact hc
          · exact hnc t2 h
    · exact ih np f (w.push c)

/-! ## Claim theorems -/

/-- Claim C1: label resolution is order-independent — an operand may reference
a label declared on a later line.  Assembling the three-line source
`"JUMP end\nHALT\nend: HALT"` succeeds, and the operand of instruction 0 (the
JUMP, whose label `end` is declared only on line 3) is back-patched to the
instruction index 2. -/
theorem c1_forward_label_reference_resolved :
    parse_source_new Parser.default "JUMP end\nHALT\nend: HALT" =
      Except.ok
        [{ op_code := OpCode.JUMP, op_type := OpType.Value, op_value := 2 },
         { op_code := OpCode.HALT, op_type := OpType.NoValue, op_value := 0 },
         { op_code := OpCode.HALT, op_type := OpType.NoValue, op_value := 0 }] := by
  rfl

/-- Claim C2: contrary to the claim, a READ step whose input line does not
parse as an integer does NOT surface a typed error and does NOT leave the
machine halted.  On the program `READ 0; HALT` with input line `"abc"`, the
step returns the plain `None` (the same value as normal completion, the error
text going only to stderr), the machine is not in the Halted state, the
instruction pointer has advanced, and the very next step executes the HALT
instruction normally. -/
theorem c2_read_malformed_input_behavior :
    (execute_next_instruction (initState
        [{ op_code := OpCode.READ, op_type := OpType.Register, op_value := 0 },
         { op_code := OpCode.HALT, op_type := OpType.NoValue, op_value := 0 }]
        ["abc"])).1 = StepResult.none ∧
    (execute_next_instruction (initState
        [{ op_code := OpCode.READ, op_type := OpType.Register, op_value := 0 },
         { op_code := OpCode.HALT, op_type := OpType.NoValue, op_value := 0 }]
        ["abc"])).2.ram.finished = false ∧
    (execute_next_instruction (initState
        [{ op_code := OpCode.READ, op_type := OpType.Register, op_value := 0 },
         { op_code := OpCode.HALT, op_type := OpType.NoValue, op_value := 0 }]
        ["abc"])).2.ram.instruction_pointer = 1 ∧
    (execute_next_instruction (initState
        [{ op_code := OpCode.READ, op_type := OpType.Register, op_value := 0 },
         { op_code := OpCode.HALT, op_type := OpType.NoValue, op_value := 0 }]
        ["abc"])).2.stderr =
      ["ERROR: Incorrect READ data: Input argument must be a 32 bit integer"] ∧
    (stepIter 1 (initState
        [{ op_code := OpCode.READ, op_type := OpType.Register, op_value := 0 },
         { op_code := OpCode.HALT, op_type := OpType.NoValue, op_value := 0 }]
        ["abc"])).1 =
      StepResult.some { op_code := OpCode.HALT, op_type := OpType.NoValue, op_value := 0 } :=
  ⟨by decide, by decide, by decide, by decide, by decide⟩

/-- Claim C3: contrary to the claim, a DIV step whose decoded divisor is zero
does not report a typed DivisionByZero error: the source divides with no zero
check, which in Rust is a crash — modelled as the `panicked` outcome.  On the
program `LOAD =1; DIV =0`, the second step is that crash. -/
theorem c3_div_by_zero_behavior :
    (stepIter 1 (initState
        [{ op_code := OpCode.LOAD, op_type := OpType.Value, op_value := 1 },
         { op_code := OpCode.DIV, op_type := OpType.Value, op_value := 0 }] [])).1 =
      StepResult.panicked "attempt to divide by zero" := by
  decide

/-- Claim C4: contrary to the claim, a jump whose decoded target lies outside
`[0, instruction_count]` is not reported as an OutOfRangeJump error: the
pointer is set unchecked and the NEXT fetch crashes on out-of-bounds indexing
(modelled as the `panicked` outcome).  On the one-instruction program
`JUMP =5`, the jump itself succeeds, the pointer becomes 5, and the following
step is the crash.  A target equal to the instruction count (`JUMP =1`) is
indeed normal completion, as the claim's parenthetical states. -/
theorem c4_out_of_range_jump_behavior :
    (stepIter 0 (initState
        [{ op_code := OpCode.JUMP, op_type := OpType.Value, op_value := 5 }] [])).1 =
      StepResult.some { op_code := OpCode.JUMP, op_type := OpType.Value, op_value := 5 } ∧
    (stepIter 0 (initState
        [{ op_code := OpCode.JUMP, op_type := OpType.Value, op_value := 5 }]
        [])).2.ram.instruction_pointer = 5 ∧
    (stepIter 1 (initState
        [{ op_code := OpCode.JUMP, op_type := OpType.Value, op_value := 5 }] [])).1 =
      StepResult.panicked "index out of bounds" ∧
    (stepIter 1 (initState
        [{ op_code := OpCode.JUMP, op_type := OpType.Value, op_value := 1 }] [])).1 =
      StepResult.none ∧
    (stepIter 1 (initState
        [{ op_code := OpCode.JUMP, op_type := OpType.Value, op_value := 1 }]
        [])).2.ram.finished = true :=
  ⟨by decide, by decide, by decide, by decide, by decide⟩

/-- Claim C6: executing the three-instruction program `LOAD =5; ADD =3;
WRITE 0` (Immediate operands 5 and 3, then WRITE with Register addressing of
register 0, the accumulator) emits exactly the value 8 on the output channel,
and the run completes. -/
theorem c6_load_add_write_outputs_8 :
    (run_fuel 10 (initState
        [{ op_code := OpCode.LOAD, op_type := OpType.Value, op_value := 5 },
         { op_code := OpCode.ADD, op_type := OpType.Value, op_value := 3 },
         { op_code := OpCode.WRITE, op_type := OpType.Register, op_value := 0 }]
        [])).stdout = [8] ∧
    (run_fuel 10 (initState
        [{ op_code := OpCode.LOAD, op_type := OpType.Value, op_value := 5 },
         { op_code := OpCode.ADD, op_type := OpType.Value, op_value := 3 },
         { op_code := OpCode.WRITE, op_type := OpType.Register, op_value := 0 }]
        [])).ram.finished = true :=
  ⟨by decide, by decide⟩

/-- Claim C7: in every machine state whose register 2 holds 5 and whose
register 5 holds 42, decoding an operand with Indirect (`ReadReg`) addressing
and operand value 2 yields 42, by double dereference through the register
file. -/
theorem c7_indirect_addressing_decodes_via_double_deref
    (ram : RAM) (oc : OpCode)
    (h2 : ram.registers.getD 2 0 = 5) (h5 : ram.registers.getD 5 0 = 42) :
    ∃ ram2,
      get_instruction_data ram
          { op_code := oc, op_type := OpType.ReadReg, op_value := 2 } =
        Except.ok (42, ram2) := by
  have fst42 : (get_readregister_data ram 2).1 = 42 := by
    have e1 : (get_register_data ram 2).1 = 5 := by
      show (resizeTo ram.registers 3).getD 2 0 = 5
      rw [resizeTo_getD]
      exact h2
    unfold get_readregister_data
    rw [e1]
    show (resizeTo (resizeTo ram.registers 3) 6).getD 5 0 = 42
    rw [resizeTo_getD, resizeTo_getD]
    exact h5
  refine ⟨(get_readregister_data ram 2).2, ?_⟩
  show Except.ok (get_readregister_data ram 2) = _
  rw [show (get_readregister_data ram 2) =
      ((get_readregister_data ram 2).1, (get_readregister_data ram 2).2) from rfl,
    fst42]

/-- Witness for C7 at a concrete register file. -/
theorem c7_indirect_addressing_decodes_via_double_deref_witness :
    ∃ ram2,
      get_instruction_data
          { finished := false, instruction_stack := [], instruction_pointer := 0,
            registers := [0, 0, 5, 0, 0, 42] }
          { op_code := OpCode.JUMP, op_type := OpType.ReadReg, op_value := 2 } =
        Except.ok (42, ram2) :=
  c7_indirect_addressing_decodes_via_double_deref
    { finished := false, instruction_stack := [], instruction_pointer := 0,
      registers := [0, 0, 5, 0, 0, 42] }
    OpCode.JUMP (by decide) (by decide)

/-- Claim C8: running the program consisting solely of `HALT` mutates no
register (the register file is untouched and every register still reads 0),
reaches the halted state after exactly one step, that single step returns the
HALT instruction, and every later step returns nothing. -/
theorem c8_halt_only_program :
    (execute_next_instruction (initState
        [{ op_code := OpCode.HALT, op_type := OpType.NoValue, op_value := 0 }] [])).1 =
      StepResult.some { op_code := OpCode.HALT, op_type := OpType.NoValue, op_value := 0 } ∧
    (execute_next_instruction (initState
        [{ op_code := OpCode.HALT, op_type := OpType.NoValue, op_value := 0 }]
        [])).2.ram.registers = [] ∧
    (∀ i : Nat,
      (execute_next_instruction (initState
          [{ op_code := OpCode.HALT, op_type := OpType.NoValue, op_value := 0 }]
          [])).2.ram.registers.getD i 0 = 0) ∧
    (execute_next_instruction (initState
        [{ op_code := OpCode.HALT, op_type := OpType.NoValue, op_value := 0 }]
        [])).2.ram.finished = true ∧
    ∀ n : Nat,
      (stepIter (n + 1) (initState
          [{ op_code := OpCode.HALT, op_type := OpType.NoValue, op_value := 0 }] [])).1 =
        StepResult.none := by
  refine ⟨by decide, by decide, ?_, by decide, ?_⟩
  · intro i
    show (([] : List Int).getD i 0) = 0
    exact List.getD_nil
  · intro n
    show (stepIter n ((execute_next_instruction (initState
        [{ op_code := OpCode.HALT, op_type := OpType.NoValue, op_value := 0 }] [])).2)).1 =
      StepResult.none
    rw [stepIter_of_finished n _ (by decide)]

/-- Claim C9: an operand token that begins with an addressing marker (`*` or
`=`) followed by text that does not parse as an integer is recorded in the
pending-label list as the whole token, marker included, while a label
declaration `foo:` is stored under the bare name `foo`; consequently such a
reference never matches the bare label and assembly fails with the
unresolved-label error even though the bare label is declared — as the
end-to-end source `"JUMP *foo\nfoo: HALT"` shows. -/
theorem c9_marker_kept_in_pending_label (p : Parser) (cs : List Char)
    (hno : parseI32 (String.mk cs) = Option.none) :
    parse_instruction_words p ["JUMP", String.mk ('*' :: cs)] =
      (ParsingResult.Instruction
        { op_code := OpCode.JUMP, op_type := OpType.Value, op_value := -1 },
       { p with missing_labels := p.missing_labels ++ [(String.mk ('*' :: cs), p.cursor)],
                cursor := p.cursor + 1 }) ∧
    parse_instruction_words p ["JUMP", String.mk ('=' :: cs)] =
      (ParsingResult.Instruction
        { op_code := OpCode.JUMP, op_type := OpType.Value, op_value := -1 },
       { p with missing_labels := p.missing_labels ++ [(String.mk ('=' :: cs), p.cursor)],
                cursor := p.cursor + 1 }) ∧
    parse_source_new Parser.default "JUMP *foo\nfoo: HALT" =
      Except.error "ERROR: Exception thrown. Label named `*foo` not found." := by
  refine ⟨?_, ?_, by rfl⟩
  · have hop : opcodeOfString "JUMP" = Option.some OpCode.JUMP := rfl
    have h1 : str_starts_with "JUMP" ';' = false := rfl
    have h2 : str_ends_with "JUMP" ':' = false := rfl
    have h3 : str_starts_with (String.mk ('*' :: cs)) ';' = false := rfl
    have h4 : str_starts_with (String.mk ('*' :: cs)) '*' = true := rfl
    have h5 : parseI32 (str_drop1 (String.mk ('*' :: cs))) = Option.none := hno
    simp only [parse_instruction_words, label_loop, hop, h1, h2, h3, h4, h5,
      Bool.false_eq_true, if_false, if_true, ite_true, ite_false]
  · have hop : opcodeOfString "JUMP" = Option.some OpCode.JUMP := rfl
    have h1 : str_starts_with "JUMP" ';' = false := rfl
    have h2 : str_ends_with "JUMP" ':' = false := rfl
    have h3 : str_starts_with (String.mk ('=' :: cs)) ';' = false := rfl
    have h4 : str_starts_with (String.mk ('=' :: cs)) '*' = false := rfl
    have h6 : str_starts_with (String.mk ('=' :: cs)) '=' = true := rfl
    have h5 : parseI32 (str_drop1 (String.mk ('=' :: cs))) = Option.none := hno
    simp only [parse_instruction_words, label_loop, hop, h1, h2, h3, h4, h6, h5,
      Bool.false_eq_true, if_false, if_true, ite_true, ite_false]

/-- Witness for C9 with the non-integer label text `foo`. -/
theorem c9_marker_kept_in_pending_label_witness :
    parse_instruction_words Parser.default ["JUMP", String.mk ('*' :: ['f', 'o', 'o'])] =
      (ParsingResult.Instruction
        { op_code := OpCode.JUMP, op_type := OpType.Value, op_value := -1 },
       { Parser.default with
           missing_labels := Parser.default.missing_labels ++
             [(String.mk ('*' :: ['f', 'o', 'o']), Parser.default.cursor)],
           cursor := Parser.default.cursor + 1 }) :=
  (c9_marker_kept_in_pending_label Parser.default ['f', 'o', 'o'] (by decide)).1

/-- Claim C10: a line whose mnemonic is a valid opcode other than HALT but
that carries no operand token (or whose next token begins with a semicolon)
assembles successfully into an instruction with addressing mode `NoValue` and
operand 0 — no missing-operand error exists at assembly time. -/
theorem c10_missing_operand_accepted_as_novalue
    (p : Parser) (w : String) (oc : OpCode)
    (hw : opcodeOfString w = Option.some oc) (_hhalt : oc ≠ OpCode.HALT) :
    parse_instruction_words p [w] =
      (ParsingResult.Instruction
        { op_code := oc, op_type := OpType.NoValue, op_value := 0 },
       { p with cursor := p.cursor + 1 }) ∧
    ∀ (v : String) (rest : List String), str_starts_with v ';' = true →
      parse_instruction_words p (w :: v :: rest) =
        (ParsingResult.Instruction
          { op_code := oc, op_type := OpType.NoValue, op_value := 0 },
         { p with cursor := p.cursor + 1 }) := by
  rcases opcodeOfString_cases hw with h|h|h|h|h|h|h|h|h|h|h|h <;>
    (rw [Prod.mk.injEq] at h
     obtain ⟨h1, h2⟩ := h
     subst h1
     subst h2
     refine ⟨rfl, ?_⟩
     intro v rest hv
     obtain ⟨cs, hcs⟩ := starts_semi_exists hv
     subst hcs
     rfl)

/-- Witness for C10 on a bare `LOAD` line and on `LOAD ;note`. -/
theorem c10_missing_operand_accepted_as_novalue_witness :
    parse_instruction_words Parser.default ["LOAD"] =
      (ParsingResult.Instruction
        { op_code := OpCode.LOAD, op_type := OpType.NoValue, op_value := 0 },
       { Parser.default with cursor := Parser.default.cursor + 1 }) ∧
    parse_instruction_words Parser.default ["LOAD", ";note"] =
      (ParsingResult.Instruction
        { op_code := OpCode.LOAD, op_type := OpType.NoValue, op_value := 0 },
       { Parser.default with cursor := Parser.default.cursor + 1 }) :=
  ⟨(c10_missing_operand_accepted_as_novalue Parser.default "LOAD" OpCode.LOAD rfl
      (by decide)).1,
   (c10_missing_operand_accepted_as_novalue Parser.default "LOAD" OpCode.LOAD rfl
      (by decide)).2 ";note" [] (by decide)⟩

/-- Claim C5 counterexample: on the line `"ADD;c"` (semicolon directly after
a word) the tokenizer emits the comment token and THEN the word token, so a
further token does follow the comment, contradicting the claim that
tokenizing of the line stops at the semicolon. -/
theorem c5_tokenizer_comment_counterexample :
    (parse_line { tokens := [] } "ADD;c").tokens =
      [Token.Comment "c", Token.InstrName "ADD"] ∧
    (parse_line { tokens := [] } "ADD;c").tokens.getLast? =
      Option.some (Token.InstrName "ADD") :=
  ⟨by decide, by decide⟩

/-- Claim C5 (amended): for every line containing a semicolon, the tokenizer
emits exactly one comment token, holding the text after the first semicolon,
and emits no token derived from that text; the only token that can follow the
comment token is the single word that was still being accumulated when the
semicolon was reached, and it is never itself a comment. -/
theorem c5_tokenizer_comment_amended
    (np : NewParser) (pre post : List Char) (h : ';' ∉ pre) :
    ∃ ts tl,
      (parse_line np (String.mk (pre ++ ';' :: post))).tokens =
        np.tokens ++ ts ++ [Token.Comment (String.mk post)] ++ tl ∧
      (∀ t ∈ ts, t.isComment = false) ∧
      (tl = [] ∨ ∃ t, tl = [t] ∧ t.isComment = false) := by
  unfold parse_line
  have e : (String.mk (pre ++ ';' :: post)).data = pre ++ ';' :: post := rfl
  rw [e, scan_semicolon post pre np false "" h]
  obtain ⟨ts, hts, hnc⟩ := scan_no_comment pre np false ""
  rcases tokenize_word_tokens
      { tokens := (parse_line_scan np false "" pre).1.tokens ++
          [Token.Comment (String.mk post)] }
      (parse_line_scan np false "" pre).2.2 (parse_line_scan np false "" pre).2.1
    with he | ⟨t, he, hcm⟩
  · refine ⟨ts, [], ?_, hnc, Or.inl rfl⟩
    rw [he]
    simp [hts]
  · refine ⟨ts, [t], ?_, hnc, Or.inr ⟨t, rfl, hcm⟩⟩
    rw [he]
    simp [hts]

/-- Witness for C5 (amended) on the line `"ADD;c"`. -/
theorem c5_tokenizer_comment_amended_witness :
    ∃ ts tl,
      (parse_line { tokens := [] }
          (String.mk (['A', 'D', 'D'] ++ ';' :: ['c']))).tokens =
        ({ tokens := [] } : NewParser).tokens ++ ts ++
          [Token.Comment (String.mk ['c'])] ++ tl ∧
      (∀ t ∈ ts, t.isComment = false) ∧
      (tl = [] ∨ ∃ t, tl = [t] ∧ t.isComment = false) :=
  c5_tokenizer_comment_amended { tokens := [] } ['A', 'D', 'D'] ['c'] (by decide)

end RAMulator
